import Mathlib

/-!
# Verification of `blobman` (src/blobman/__init__.py)

Shallow embedding of the blob-set reconciliation engine of `macabrus/blobman`:
lock-state diffing (`_diff_locks`), pattern resolution (`_ls` over a model of
Python `glob`), collision detection (`_ensure_no_collisions`), snapshot-tag
allocation (the rejection loop in `snapshot`), worktree-lock construction
(`_load_config`), pattern removal (`remove`), and the effect order of the
non-dry `snapshot` command.

Machine integers do not occur; Python sets become `Finset String`, Python
lists become `List`, Python `None` becomes `Option`, and Python exceptions
become explicit error values.
-/

namespace Blobman

/-- One entry of `tracked_files`: the dict `{'file': ..., 'hash': ...}`. -/
structure TrackedFile where
  file : String
  hash : String
deriving DecidableEq, Repr

/-- Embeds the `LockInfo` attrs class: `snapshot_tag: str | None` and
`tracked_files: list[dict[str, str]]`. -/
structure LockInfo where
  snapshot_tag : Option String := none
  tracked_files : List TrackedFile := []
deriving DecidableEq, Repr

/-- Embeds the `LockDiff` attrs class. The Python code stores Python `set`s
in these fields, hence `Finset String`. -/
structure LockDiff where
  added_files : Finset String := ∅
  removed_files : Finset String := ∅
  modified_files : Finset String := ∅
  unchanged_files : Finset String := ∅
deriving DecidableEq

/-- `set(p['file'] for p in l.tracked_files)`. -/
def lockFiles (l : LockInfo) : Finset String :=
  (l.tracked_files.map (·.file)).toFinset

/-- The Python dict comprehension `{f['file']: f['hash'] for f in fs}` read
as a lookup function: later list entries overwrite earlier ones, so we search
the reversed list. -/
def lookupHash (fs : List TrackedFile) (p : String) : Option String :=
  (fs.reverse.find? (fun f => f.file == p)).map (·.hash)

/-- The guard on line 279 of the source:
`src.snapshot_tag == dst.snapshot_tag and None not in (src.snapshot_tag, dst.snapshot_tag)`. -/
def tagFastPath (src dst : LockInfo) : Bool :=
  src.snapshot_tag == dst.snapshot_tag
    && src.snapshot_tag.isSome && dst.snapshot_tag.isSome

/-- Embeds `_diff_locks`. -/
def diff_locks (src dst : LockInfo) : LockDiff :=
  if tagFastPath src dst then
    { unchanged_files := lockFiles src }
  else
    let src_files := lockFiles src
    let dst_files := lockFiles dst
    let common_files := src_files ∩ dst_files
    let changed_files := common_files.filter
      (fun p => lookupHash src.tracked_files p ≠ lookupHash dst.tracked_files p)
    { added_files := dst_files \ src_files
      removed_files := src_files \ dst_files
      modified_files := changed_files
      unchanged_files := common_files \ changed_files }

lemma tagFastPath_iff (s d : LockInfo) :
    tagFastPath s d = true ↔
      s.snapshot_tag = d.snapshot_tag ∧ s.snapshot_tag ≠ none ∧ d.snapshot_tag ≠ none := by
  simp [tagFastPath, Option.isSome_iff_ne_none, and_assoc]

lemma tagFastPath_comm (s d : LockInfo) : tagFastPath s d = tagFastPath d s := by
  rw [Bool.eq_iff_iff, tagFastPath_iff, tagFastPath_iff]
  tauto

/-- The target set that the four diff classes actually cover: the union of
both path sets on the general path, but only `src`'s paths on the tag fast
path (which ignores `dst.tracked_files` entirely). -/
def diffTarget (src dst : LockInfo) : Finset String :=
  if tagFastPath src dst then lockFiles src else lockFiles src ∪ lockFiles dst

end Blobman

namespace Blobman

/-- C3: if both snapshot tags are present and equal, `_diff_locks` returns
all of `src`'s paths as unchanged and empty added/removed/modified sets,
for arbitrary tracked-file lists — in particular without comparing hashes. -/
theorem diff_locks_tag_short_circuit (a b : LockInfo)
    (htag : a.snapshot_tag = b.snapshot_tag) (hsome : a.snapshot_tag ≠ none) :
    (diff_locks a b).unchanged_files = lockFiles a ∧
      (diff_locks a b).added_files = ∅ ∧
      (diff_locks a b).removed_files = ∅ ∧
      (diff_locks a b).modified_files = ∅ := by
  have hfast : tagFastPath a b = true :=
    (tagFastPath_iff a b).mpr ⟨htag, hsome, htag ▸ hsome⟩
  simp [diff_locks, hfast]

/-- Witness for C3: two locks with the same tag `"t"` whose hashes for the
common path `"x.bin"` differ; the diff still reports `"x.bin"` unchanged. -/
theorem diff_locks_tag_short_circuit_witness :
    (⟨some "t", [⟨"x.bin", "aaa"⟩]⟩ : LockInfo).snapshot_tag
        = (⟨some "t", [⟨"x.bin", "bbb"⟩]⟩ : LockInfo).snapshot_tag ∧
      (⟨some "t", [⟨"x.bin", "aaa"⟩]⟩ : LockInfo).snapshot_tag ≠ none ∧
      ((diff_locks ⟨some "t", [⟨"x.bin", "aaa"⟩]⟩ ⟨some "t", [⟨"x.bin", "bbb"⟩]⟩).unchanged_files
          = lockFiles ⟨some "t", [⟨"x.bin", "aaa"⟩]⟩ ∧
        (diff_locks ⟨some "t", [⟨"x.bin", "aaa"⟩]⟩ ⟨some "t", [⟨"x.bin", "bbb"⟩]⟩).added_files = ∅ ∧
        (diff_locks ⟨some "t", [⟨"x.bin", "aaa"⟩]⟩ ⟨some "t", [⟨"x.bin", "bbb"⟩]⟩).removed_files = ∅ ∧
        (diff_locks ⟨some "t", [⟨"x.bin", "aaa"⟩]⟩ ⟨some "t", [⟨"x.bin", "bbb"⟩]⟩).modified_files = ∅) :=
  ⟨rfl, by decide,
    diff_locks_tag_short_circuit ⟨some "t", [⟨"x.bin", "aaa"⟩]⟩ ⟨some "t", [⟨"x.bin", "bbb"⟩]⟩
      rfl (by decide)⟩

/-- C8: `added` of `diff(a, b)` equals `removed` of `diff(b, a)` and vice
versa, for every pair of lock states. -/
theorem diff_locks_directional_symmetry (a b : LockInfo) :
    (diff_locks a b).added_files = (diff_locks b a).removed_files ∧
      (diff_locks a b).removed_files = (diff_locks b a).added_files := by
  by_cases h : tagFastPath a b = true
  · have h' : tagFastPath b a = true := (tagFastPath_comm b a).trans h
    simp [diff_locks, h, h']
  · have h' : ¬ tagFastPath b a = true := fun hc => h ((tagFastPath_comm a b).trans hc)
    simp [diff_locks, h, h']

/-- C2 counterexample: two locks with the same present tag but different
path sets. The fast path reports nothing at all, so path `"x"` of the union
of the two path sets lies in none of the four classes. -/
theorem diff_locks_partition_counterexample :
    "x" ∈ lockFiles ⟨some "t", []⟩ ∪ lockFiles ⟨some "t", [⟨"x", "h"⟩]⟩ ∧
      "x" ∉ (diff_locks ⟨some "t", []⟩ ⟨some "t", [⟨"x", "h"⟩]⟩).added_files ∧
      "x" ∉ (diff_locks ⟨some "t", []⟩ ⟨some "t", [⟨"x", "h"⟩]⟩).removed_files ∧
      "x" ∉ (diff_locks ⟨some "t", []⟩ ⟨some "t", [⟨"x", "h"⟩]⟩).modified_files ∧
      "x" ∉ (diff_locks ⟨some "t", []⟩ ⟨some "t", [⟨"x", "h"⟩]⟩).unchanged_files := by
  refine ⟨by decide, ?_, ?_, ?_, ?_⟩ <;> decide

/-- C2 (amended): the four classes of `_diff_locks` are pairwise disjoint
and their union is `diffTarget`: the full union `a.paths ∪ b.paths` whenever
the tag fast path does not fire, but only `a.paths` when it does. -/
theorem diff_locks_partition (a b : LockInfo) :
    ((diff_locks a b).added_files ∪ (diff_locks a b).removed_files ∪
        (diff_locks a b).modified_files ∪ (diff_locks a b).unchanged_files
      = diffTarget a b) ∧
      (diff_locks a b).added_files ∩ (diff_locks a b).removed_files = ∅ ∧
      (diff_locks a b).added_files ∩ (diff_locks a b).modified_files = ∅ ∧
      (diff_locks a b).added_files ∩ (diff_locks a b).unchanged_files = ∅ ∧
      (diff_locks a b).removed_files ∩ (diff_locks a b).modified_files = ∅ ∧
      (diff_locks a b).removed_files ∩ (diff_locks a b).unchanged_files = ∅ ∧
      (diff_locks a b).modified_files ∩ (diff_locks a b).unchanged_files = ∅ := by
  by_cases h : tagFastPath a b = true
  · simp [diff_locks, diffTarget, h]
  · refine ⟨?_, ?_, ?_, ?_, ?_, ?_, ?_⟩ <;>
      · ext p
        simp only [diff_locks, diffTarget, h, if_false, Bool.false_eq_true,
          Finset.mem_union, Finset.mem_inter, Finset.mem_sdiff, Finset.mem_filter,
          Finset.not_mem_empty, iff_false, not_and, not_not]
        tauto

/-! ## Snapshot-tag allocation

Lines 82-84 of the source: `tags` is the set of restic tags starting with
`'blobmanid:'`, and the allocator loop
`while ('blobmanid:' + (id := hex(random.getrandbits(32))[2:])) in tags: pass`
resamples `id` until the prefixed tag is free. We embed the stream of
successive `hex(random.getrandbits(32))[2:]` samples as an explicit list of
draws; the loop consumes draws until one is free. -/

/-- The rejection-sampling loop of `snapshot`, over an explicit list of
random draws. Returns `none` only when the draw stream is exhausted with
every draw colliding (the Python loop would keep sampling). -/
def allocate_tag (tags : Finset String) : List String → Option String
  | [] => none
  | d :: ds => if ("blobmanid:" ++ d) ∈ tags then allocate_tag tags ds else some d

/-- C6: whenever the random stream contains at least one token whose
prefixed form is not among the existing tags (guaranteed eventually when the
existing tags do not exhaust the token space), the allocator returns a tag
that is not a member of the existing-tag set. -/
theorem allocate_tag_fresh (tags : Finset String) (draws : List String)
    (h : ∃ d ∈ draws, ("blobmanid:" ++ d) ∉ tags) :
    ∃ t, allocate_tag tags draws = some t ∧ ("blobmanid:" ++ t) ∉ tags := by
  induction draws with
  | nil => simp at h
  | cons d ds ih =>
    by_cases hd : ("blobmanid:" ++ d) ∈ tags
    · obtain ⟨e, he, hfree⟩ := h
      rcases List.mem_cons.mp he with rfl | he'
      · exact absurd hd hfree
      · obtain ⟨t, ht, htf⟩ := ih ⟨e, he', hfree⟩
        exact ⟨t, by simpa [allocate_tag, hd] using ht, htf⟩
    · exact ⟨d, by simp [allocate_tag, hd], hd⟩

/-- Witness for C6: the existing tags are `{"blobmanid:aa"}`; the draw
stream first collides on `"aa"`, then finds `"bb"` free. -/
theorem allocate_tag_fresh_witness :
    (∃ d ∈ ["aa", "bb"], ("blobmanid:" ++ d) ∉ ({"blobmanid:aa"} : Finset String)) ∧
      ∃ t, allocate_tag {"blobmanid:aa"} ["aa", "bb"] = some t ∧
        ("blobmanid:" ++ t) ∉ ({"blobmanid:aa"} : Finset String) :=
  ⟨by decide, allocate_tag_fresh {"blobmanid:aa"} ["aa", "bb"] (by decide)⟩

/-! ## Collision detection (`_ensure_no_collisions`)

The git-reported path sets are built by `set(run(...).stdout.split('\n'))`,
so we take the raw stdout strings as inputs and split on newlines. The
Python function prints and calls `exit(1)` on collision; we embed that as an
`Except` error carrying the offending path set `common`. -/

/-- Helper for `splitLines`: split a character list on `'\n'`. -/
def splitCharsOnNewline : List Char → List String
  | [] => [""]
  | c :: cs =>
    let rest := splitCharsOnNewline cs
    if c = '\n' then "" :: rest
    else
      match rest with
      | [] => [String.mk [c]]
      | r :: rs => String.mk (c :: r.data) :: rs

/-- `s.split('\n')` from Python: always non-empty, keeps empty pieces (so an
empty stdout yields `[""]`). -/
def splitLines (s : String) : List String := splitCharsOnNewline s.data

/-- The error raised when blob patterns collide with git-managed paths. -/
structure CollisionError where
  paths : Finset String
deriving DecidableEq

/-- Embeds `_ensure_no_collisions`, starting from the resolved blob fileset
and the stdout of the two git commands. -/
def ensure_no_collisions (blob_matching : Finset String)
    (stagedOut trackedOut : String) : Except CollisionError Unit :=
  let git_staged := (splitLines stagedOut).toFinset
  let git_tracked := (splitLines trackedOut).toFinset
  let common := (blob_matching ∩ git_staged) ∪ (blob_matching ∩ git_tracked)
  if common = ∅ then Except.ok () else Except.error ⟨common⟩

/-- C5: the collision check succeeds exactly when the resolved blob fileset
is disjoint from the union of staged and committed paths, and on a non-empty
intersection it fails with the error listing exactly that intersection. -/
theorem ensure_no_collisions_iff (blob : Finset String) (stagedOut trackedOut : String) :
    (ensure_no_collisions blob stagedOut trackedOut = Except.ok () ↔
        blob ∩ ((splitLines stagedOut).toFinset ∪ (splitLines trackedOut).toFinset) = ∅) ∧
      (blob ∩ ((splitLines stagedOut).toFinset ∪ (splitLines trackedOut).toFinset) ≠ ∅ →
        ensure_no_collisions blob stagedOut trackedOut =
          Except.error ⟨blob ∩ ((splitLines stagedOut).toFinset ∪ (splitLines trackedOut).toFinset)⟩) := by
  have hdist : (blob ∩ (splitLines stagedOut).toFinset) ∪ (blob ∩ (splitLines trackedOut).toFinset)
      = blob ∩ ((splitLines stagedOut).toFinset ∪ (splitLines trackedOut).toFinset) := by
    ext p
    simp only [Finset.mem_union, Finset.mem_inter]
    tauto
  constructor
  · constructor
    · intro h
      by_contra hne
      simp only [ensure_no_collisions, hdist, if_neg hne] at h
      cases h
    · intro h
      simp [ensure_no_collisions, hdist, h]
  · intro h
    simp [ensure_no_collisions, hdist, h]

/-- Witness for C5: blob fileset `{"secret.bin"}`, staged output listing
`secret.bin`, empty committed output — the check fails listing exactly
`secret.bin`. -/
theorem ensure_no_collisions_iff_witness :
    ({"secret.bin"} : Finset String) ∩
        ((splitLines "secret.bin").toFinset ∪ (splitLines "").toFinset) ≠ ∅ ∧
      ensure_no_collisions {"secret.bin"} "secret.bin" "" =
        Except.error ⟨({"secret.bin"} : Finset String) ∩
          ((splitLines "secret.bin").toFinset ∪ (splitLines "").toFinset)⟩ :=
  ⟨by decide, (ensure_no_collisions_iff {"secret.bin"} "secret.bin" "").2 (by decide)⟩

/-! ## Effect order of the non-dry `snapshot` command (C1)

Lines 79-91 of the source, after the collision check and tag allocation:

    c.lock = c.worktree_lock
    c.lock.snapshot_tag = id
    _store_config(c)          # persists the NEW lock to disk
    ...
    run(f'restic backup --tag blobmanid:{id} ...')   # external transfer

`_store_config` runs before `restic backup`, so the persisted lock is the
new lock regardless of whether the transfer succeeds; a failed transfer
(invoke's `run` raises on a non-zero exit) leaves the new lock on disk. -/

/-- Result of running the non-dry `snapshot` command past the point where
the backup transfer finishes or fails. -/
structure SnapshotOutcome where
  persisted_lock : LockInfo
  transfer_failed : Bool
deriving DecidableEq, Repr

/-- Embeds the commit phase of `snapshot`: `persisted` is the lock on disk
before the call, `worktree` the freshly computed worktree lock, `freshId`
the tag produced by the allocator, `transfer_ok` whether `restic backup`
succeeds. The source stores the new lock before invoking the transfer, so
the persisted lock after the call is the new lock in both branches. -/
def snapshot_commit (persisted worktree : LockInfo) (freshId : String)
    (transfer_ok : Bool) : SnapshotOutcome :=
  let newLock : LockInfo := { worktree with snapshot_tag := some freshId }
  { persisted_lock := newLock, transfer_failed := !transfer_ok }

/-- C1 fails on the code: with pre-call persisted lock
`{tag t0, [x.bin ↦ aaa]}`, worktree `{no tag, [x.bin ↦ bbb]}` and fresh tag
`t1`, a failed transfer leaves the persisted lock different from its
pre-call value (it is the new lock `{tag t1, [x.bin ↦ bbb]}`). -/
theorem snapshot_commit_not_atomic :
    (snapshot_commit ⟨some "t0", [⟨"x.bin", "aaa"⟩]⟩ ⟨none, [⟨"x.bin", "bbb"⟩]⟩
        "t1" false).transfer_failed = true ∧
      (snapshot_commit ⟨some "t0", [⟨"x.bin", "aaa"⟩]⟩ ⟨none, [⟨"x.bin", "bbb"⟩]⟩
          "t1" false).persisted_lock
        = ⟨some "t1", [⟨"x.bin", "bbb"⟩]⟩ ∧
      (snapshot_commit ⟨some "t0", [⟨"x.bin", "aaa"⟩]⟩ ⟨none, [⟨"x.bin", "bbb"⟩]⟩
          "t1" false).persisted_lock
        ≠ ⟨some "t0", [⟨"x.bin", "aaa"⟩]⟩ := by
  refine ⟨rfl, rfl, ?_⟩
  decide

/-! ## Pattern removal (`remove`, lines 164-167)

    c = _load_config()
    del c.include_patterns[pattern_id]
    _store_config(c)

Python `del d[k]` raises `KeyError(k)` when `k` is not a key; the exception
propagates before `_store_config` runs, so the persisted config record is
unchanged. -/

/-- Python exceptions relevant to `remove`. -/
inductive PyErr where
  | keyError : String → PyErr
deriving DecidableEq, Repr

/-- The part of the persisted config record that `remove` touches: the
`include_patterns` dict (`id -> glob`), as an insertion-ordered entry list. -/
structure ConfigRec where
  include_patterns : List (String × String)
deriving DecidableEq, Repr

/-- Python `del d[pattern_id]` on the patterns dict: removes the key when
present, raises `KeyError` otherwise. -/
def dictDel (d : List (String × String)) (k : String) :
    Except PyErr (List (String × String)) :=
  if k ∈ d.map Prod.fst then Except.ok (d.filter (fun e => e.1 != k))
  else Except.error (PyErr.keyError k)

/-- Embeds the `remove` command against the persisted config `stored`:
returns the config on disk after the call together with the raised
exception, if any. `_store_config` runs only when `del` succeeded. -/
def remove_cmd (stored : ConfigRec) (pattern_id : String) :
    ConfigRec × Option PyErr :=
  match dictDel stored.include_patterns pattern_id with
  | Except.ok ps => ({ include_patterns := ps }, none)
  | Except.error e => (stored, some e)

/-- C10: when the given id is not a registered pattern id, `remove` raises
`KeyError` (neither a silent no-op nor a reported error of the spec's
taxonomy) and the persisted config record is unchanged, because the failure
occurs before `_store_config`. -/
theorem remove_cmd_missing_id (stored : ConfigRec) (pattern_id : String)
    (h : pattern_id ∉ stored.include_patterns.map Prod.fst) :
    remove_cmd stored pattern_id = (stored, some (PyErr.keyError pattern_id)) := by
  simp [remove_cmd, dictDel, h]

/-- Witness for C10: config with the single pattern id `"ab"`; removing the
unknown id `"zz"` raises `KeyError("zz")` and leaves the config unchanged. -/
theorem remove_cmd_missing_id_witness :
    "zz" ∉ (ConfigRec.mk [("ab", "*.bin")]).include_patterns.map Prod.fst ∧
      remove_cmd (ConfigRec.mk [("ab", "*.bin")]) "zz"
        = (ConfigRec.mk [("ab", "*.bin")], some (PyErr.keyError "zz")) :=
  ⟨by decide, remove_cmd_missing_id (ConfigRec.mk [("ab", "*.bin")]) "zz" (by decide)⟩

/-! ## Worktree lock construction (`_load_config`, lines 201-214)

    lock_map = {f['file']: f['hash'] for f in lock['tracked_files']}
    worktree_map = {f['file']: f['hash'] for f in worktree_lock['tracked_files']}
    if lock_map == worktree_map:
        worktree_lock['snapshot_tag'] = lock['snapshot_tag']
    else:
        worktree_lock['snapshot_tag'] = None

Python dict equality is extensional equality of the key-to-value maps;
`lookupHash` is that map, and `dictBEq` decides equality of two such maps
by checking every key occurring in either list. -/

/-- The keys of the `{f['file']: f['hash'] for f in l}` dict, with
multiplicity and order of first occurrence irrelevant to what follows. -/
def fileKeys (l : List TrackedFile) : List String := l.map (·.file)

/-- Python `lock_map == worktree_map`: extensional equality of the two
dicts, decided over the keys occurring on either side. -/
def dictBEq (l1 l2 : List TrackedFile) : Bool :=
  (fileKeys l1 ++ fileKeys l2).all (fun p => lookupHash l1 p == lookupHash l2 p)

/-- Embeds the worktree-lock construction of `_load_config`: the freshly
hashed worktree entries `wfiles` get the persisted lock's `snapshot_tag`
when the two dicts are equal, and `None` otherwise. -/
def mkWorktreeLock (lock : LockInfo) (wfiles : List TrackedFile) : LockInfo :=
  { snapshot_tag := if dictBEq lock.tracked_files wfiles then lock.snapshot_tag else none
    tracked_files := wfiles }

lemma lookupHash_eq_none_of_not_mem_fileKeys {l : List TrackedFile} {p : String}
    (h : p ∉ fileKeys l) : lookupHash l p = none := by
  unfold lookupHash
  have hfind : l.reverse.find? (fun f => f.file == p) = none := by
    apply List.find?_eq_none.mpr
    intro f hf hbeq
    have hfl : f ∈ l := List.mem_reverse.mp hf
    have hfp : f.file = p := by simpa using hbeq
    exact h (by rw [fileKeys]; exact List.mem_map.mpr ⟨f, hfl, hfp⟩)
  rw [hfind]
  rfl

lemma dictBEq_iff (l1 l2 : List TrackedFile) :
    dictBEq l1 l2 = true ↔ ∀ p, lookupHash l1 p = lookupHash l2 p := by
  constructor
  · intro h p
    by_cases hp : p ∈ fileKeys l1 ++ fileKeys l2
    · have := List.all_eq_true.mp h p hp
      exact eq_of_beq this
    · rw [List.mem_append] at hp
      push_neg at hp
      rw [lookupHash_eq_none_of_not_mem_fileKeys hp.1,
        lookupHash_eq_none_of_not_mem_fileKeys hp.2]
  · intro h
    exact List.all_eq_true.mpr fun p _ => beq_of_eq (h p)

/-- C9: the worktree lock computed by `_load_config` carries the persisted
lock's `snapshot_tag` exactly when the two (path → hash) maps are equal, is
`None` otherwise, and consequently the tag fast path of
`diff(persisted, worktree)` can only fire when the two maps are equal. -/
theorem mkWorktreeLock_tag_iff_equivalent (lock : LockInfo) (wfiles : List TrackedFile) :
    ((∀ p, lookupHash lock.tracked_files p = lookupHash wfiles p) →
        (mkWorktreeLock lock wfiles).snapshot_tag = lock.snapshot_tag) ∧
      ((¬ ∀ p, lookupHash lock.tracked_files p = lookupHash wfiles p) →
        (mkWorktreeLock lock wfiles).snapshot_tag = none) ∧
      (tagFastPath lock (mkWorktreeLock lock wfiles) = true →
        ∀ p, lookupHash lock.tracked_files p = lookupHash wfiles p) := by
  refine ⟨fun h => ?_, fun h => ?_, fun h => ?_⟩
  · simp [mkWorktreeLock, (dictBEq_iff _ _).mpr h]
  · have hb : dictBEq lock.tracked_files wfiles = false := by
      cases hb : dictBEq lock.tracked_files wfiles with
      | false => rfl
      | true => exact absurd ((dictBEq_iff _ _).mp hb) h
    simp [mkWorktreeLock, hb]
  · obtain ⟨-, -, hne⟩ := (tagFastPath_iff _ _).mp h
    by_cases hb : dictBEq lock.tracked_files wfiles = true
    · exact (dictBEq_iff _ _).mp hb
    · exact absurd (by simp [mkWorktreeLock, hb]) hne

/-- Witness for C9: persisted lock `{tag "t", [x ↦ aaa]}` and an identical
worktree file list; the maps agree on every path and the worktree lock keeps
tag `"t"`. -/
theorem mkWorktreeLock_tag_iff_equivalent_witness :
    (∀ p, lookupHash (⟨some "t", [⟨"x", "aaa"⟩]⟩ : LockInfo).tracked_files p
        = lookupHash [⟨"x", "aaa"⟩] p) ∧
      (mkWorktreeLock ⟨some "t", [⟨"x", "aaa"⟩]⟩ [⟨"x", "aaa"⟩]).snapshot_tag
        = (⟨some "t", [⟨"x", "aaa"⟩]⟩ : LockInfo).snapshot_tag :=
  ⟨fun _ => rfl,
    (mkWorktreeLock_tag_iff_equivalent ⟨some "t", [⟨"x", "aaa"⟩]⟩ [⟨"x", "aaa"⟩]).1
      fun _ => rfl⟩

/-! ## Pattern resolution (`_ls`, lines 243-253)

`_ls` calls `glob.glob(p, recursive=True, include_hidden=False)` — note:
without forwarding its own `root_dir` parameter, so the Python library
resolves relative patterns against the process's current working directory.
We model the filesystem as lists of absolute paths of regular files and of
directories, the working directory as an explicit `cwd` string, and the
library's matcher as `matchGlob` (literal characters, `*` matching any run
of non-separator characters, `**` matching any run of characters; the
hidden-file convention is not modeled, no instance below uses dot-files).
`glob.glob` then returns the `cwd`-relative names of existing entries whose
relative name matches the pattern, and `Path(p).is_dir()` / `Path(p).is_file()`
likewise resolve `p` against `cwd`. -/

/-- Fuel-indexed glob matcher (pattern characters, then subject characters).
Every recursive call shrinks `pattern.length + subject.length`, so
`matchGlob` below supplies sufficient fuel; the fuel only makes the
recursion structural. -/
def matchGlobF : Nat → List Char → List Char → Bool
  | _, [], [] => true
  | _, [], _ :: _ => false
  | 0, _ :: _, _ => false
  | n + 1, '*' :: '*' :: ps, s =>
      matchGlobF n ps s ||
        (match s with
         | [] => false
         | _ :: s2 => matchGlobF n ('*' :: '*' :: ps) s2)
  | n + 1, '*' :: ps, s =>
      matchGlobF n ps s ||
        (match s with
         | [] => false
         | c :: s2 => (c != '/') && matchGlobF n ('*' :: ps) s2)
  | _ + 1, _ :: _, [] => false
  | n + 1, p :: ps, c :: s => (p == c) && matchGlobF n ps s

/-- Does the glob pattern `pat` match the relative path `s`? -/
def matchGlob (pat s : String) : Bool :=
  matchGlobF (pat.data.length + s.data.length + 1) pat.data s.data

/-- The live filesystem: absolute paths of regular files and of
directories. -/
structure FileSystem where
  files : List String
  dirs : List String
deriving Repr

/-- `Path(p).is_file()` for the `cwd`-relative name `p`. -/
def isFileAt (fs : FileSystem) (cwd p : String) : Bool :=
  fs.files.contains (cwd ++ "/" ++ p)

/-- `Path(p).is_dir()` for the `cwd`-relative name `p`. -/
def isDirAt (fs : FileSystem) (cwd p : String) : Bool :=
  fs.dirs.contains (cwd ++ "/" ++ p)

/-- The `cwd`-relative name of the absolute path `fpath`, when `fpath` lies
under `cwd`. -/
def relativeTo (cwd fpath : String) : Option String :=
  if (cwd.data ++ ['/']).isPrefixOf fpath.data then
    some (String.mk (fpath.data.drop (cwd.data.length + 1)))
  else none

/-- `glob.glob(pat, recursive=True, include_hidden=False)` run with working
directory `cwd`: the relative names of existing entries under `cwd` that
match `pat`. -/
def glob_glob (fs : FileSystem) (cwd pat : String) : List String :=
  (fs.files ++ fs.dirs).filterMap fun fpath =>
    match relativeTo cwd fpath with
    | some rel => if matchGlob pat rel then some rel else none
    | none => none

/-- Embeds `_ls`: union the matches of all patterns, re-expand every
directory member as `p/**`, keep only regular files, and yield the result
sorted. The `root_dir` parameter of the source is omitted because the source
never uses it — every filesystem query goes through the process working
directory `cwd`. -/
def ls (fs : FileSystem) (cwd : String)
    (include_patterns : List (String × String)) : List String :=
  let fn := fun p => (glob_glob fs cwd p).toFinset
  let paths0 : Finset String :=
    (include_patterns.map fun ip => fn ip.2).foldr (· ∪ ·) ∅
  let paths1 : Finset String :=
    paths0 ∪ (paths0.filter fun p => isDirAt fs cwd p = true).biUnion
      fun p => fn (p ++ "/**")
  let paths2 : Finset String := paths1.filter fun p => isFileAt fs cwd p = true
  paths2.sort (· ≤ ·)

/-- C7: `_ls` yields a lexicographically sorted, duplicate-free list, every
element of which is a regular file at resolution time, and an empty pattern
collection yields an empty result. -/
theorem ls_sorted_nodup_only_files (fs : FileSystem) (cwd : String)
    (pats : List (String × String)) :
    List.Sorted (· ≤ ·) (ls fs cwd pats) ∧
      (ls fs cwd pats).Nodup ∧
      (∀ p ∈ ls fs cwd pats, isFileAt fs cwd p = true) ∧
      ls fs cwd [] = [] := by
  refine ⟨Finset.sort_sorted _ _, Finset.sort_nodup _ _, ?_, ?_⟩
  · intro p hp
    simp only [ls, Finset.mem_sort, Finset.mem_filter] at hp
    exact hp.2
  · simp [ls]

/-- Witness for C7: on the sample filesystem, `"a.bin"` is a member of the
resolution of `*.bin` from `/repo`, and is a regular file there. -/
theorem ls_sorted_nodup_only_files_witness :
    "a.bin" ∈ ls ⟨["/repo/a.bin", "/repo/sub/c.txt"], ["/repo/sub"]⟩ "/repo" [("p1", "*.bin")] ∧
      isFileAt ⟨["/repo/a.bin", "/repo/sub/c.txt"], ["/repo/sub"]⟩ "/repo" "a.bin" = true := by
  have hmem : "a.bin" ∈ ls ⟨["/repo/a.bin", "/repo/sub/c.txt"], ["/repo/sub"]⟩
      "/repo" [("p1", "*.bin")] := by
    simp only [ls, Finset.mem_sort]
    decide
  exact ⟨hmem,
    (ls_sorted_nodup_only_files ⟨["/repo/a.bin", "/repo/sub/c.txt"], ["/repo/sub"]⟩
      "/repo" [("p1", "*.bin")]).2.2.1 "a.bin" hmem⟩

/-- C4 fails on the code: on a fixed filesystem (repo root `/repo` holding
the regular files `/repo/a.bin` and `/repo/sub/c.txt`) and the fixed pattern
set `{"*.bin"}`, resolving from working directory `/repo` yields a set
containing `a.bin` while resolving from `/repo/sub` yields a set without it,
so the two results differ. -/
theorem ls_depends_on_cwd :
    "a.bin" ∈ ls ⟨["/repo/a.bin", "/repo/sub/c.txt"], ["/repo/sub"]⟩ "/repo" [("p1", "*.bin")] ∧
      "a.bin" ∉ ls ⟨["/repo/a.bin", "/repo/sub/c.txt"], ["/repo/sub"]⟩ "/repo/sub" [("p1", "*.bin")] ∧
      ls ⟨["/repo/a.bin", "/repo/sub/c.txt"], ["/repo/sub"]⟩ "/repo" [("p1", "*.bin")]
        ≠ ls ⟨["/repo/a.bin", "/repo/sub/c.txt"], ["/repo/sub"]⟩ "/repo/sub" [("p1", "*.bin")] := by
  have h1 : "a.bin" ∈ ls ⟨["/repo/a.bin", "/repo/sub/c.txt"], ["/repo/sub"]⟩
      "/repo" [("p1", "*.bin")] := by
    simp only [ls, Finset.mem_sort]
    decide
  have h2 : "a.bin" ∉ ls ⟨["/repo/a.bin", "/repo/sub/c.txt"], ["/repo/sub"]⟩
      "/repo/sub" [("p1", "*.bin")] := by
    simp only [ls, Finset.mem_sort]
    decide
  exact ⟨h1, h2, fun he => h2 (he ▸ h1)⟩

end Blobman
